import Mathlib

/-!
Shallow embedding of the iBoot-loader Binary Ninja plugin core
(`src/view.rs`): format detection (`iBootViewType::is_valid_for`),
version extraction (`iBootView::get_iboot_version`), base-address
resolution (`iBootView::find_base_addr`) and layout construction
(`iBootView::init`).

Modelling conventions:
* A raw image (`BinaryView` contents / `DataBuffer`) is a `List Nat` of
  byte values.
* `BinaryView::read_vec` / `read_into_vec` read *up to* `len` bytes at
  an offset, returning fewer bytes near the end of the file; this is
  `(img.drop off).take len`.
* `std::str::from_utf8` is embedded as a total UTF-8 decoder returning
  `Option (List Char)` (`none` = invalid byte sequence), following the
  validation ranges of the Rust standard library (Unicode Table 3-7).
* Rust `str::split('.')` is `splitDots`; `str::parse::<u64>()` is
  `parseU64` (optional leading `+`, decimal digits, overflow checked).
* A Rust panic (a failed `unwrap`, an out-of-bounds slice or index)
  aborts the process; it is modelled as `none` in the `Option` result
  of `iBootView.find_base_addr` / `iBootView.init`.  A `some` result is
  a value actually produced by the running code.
-/

/-- `BinaryView::read_vec(offset, len)`: read up to `len` bytes starting
at `offset`; a short read returns only the available bytes. -/
def read_vec (img : List Nat) (off len : Nat) : List Nat :=
  (img.drop off).take len

/-- The UTF-8 byte values of an ASCII string literal from the source. -/
def asciiBytes (s : String) : List Nat :=
  s.data.map Char.toNat

/-- The recognized format tags, in the order the source lists them:
`vec!["SecureROM", "AVPBooter", "iBoot", "iBEC", "iBSS"]`. -/
def tagNames : List (List Nat) :=
  [asciiBytes "SecureROM", asciiBytes "AVPBooter", asciiBytes "iBoot",
   asciiBytes "iBEC", asciiBytes "iBSS"]

/-- `iBootViewType::is_valid_for`: compare the bytes at offset `0x200`
byte-for-byte against each recognized tag, returning true on the first
exact match. -/
def iBootViewType.is_valid_for (data : List Nat) : Bool :=
  tagNames.any (fun t => read_vec data 0x200 t.length == t)

/-- Is `b` a UTF-8 continuation byte (`0x80..=0xBF`)? -/
def utf8Cont (b : Nat) : Bool :=
  decide (0x80 ≤ b ∧ b ≤ 0xBF)

/-- Valid second byte for a three-byte sequence with lead byte `b`
(Rust `core::str` validation: `0xE0` needs `0xA0..=0xBF`, `0xED` needs
`0x80..=0x9F`, the rest a plain continuation byte). -/
def utf8Snd3 (b b1 : Nat) : Bool :=
  if b = 0xE0 then decide (0xA0 ≤ b1 ∧ b1 ≤ 0xBF)
  else if b = 0xED then decide (0x80 ≤ b1 ∧ b1 ≤ 0x9F)
  else utf8Cont b1

/-- Valid second byte for a four-byte sequence with lead byte `b`
(`0xF0` needs `0x90..=0xBF`, `0xF4` needs `0x80..=0x8F`). -/
def utf8Snd4 (b b1 : Nat) : Bool :=
  if b = 0xF0 then decide (0x90 ≤ b1 ∧ b1 ≤ 0xBF)
  else if b = 0xF4 then decide (0x80 ≤ b1 ∧ b1 ≤ 0x8F)
  else utf8Cont b1

/-- `std::str::from_utf8` followed by collecting the characters:
decode a byte list as UTF-8, `none` on any invalid sequence.  Lead
bytes `0x80..=0xC1` and `0xF5..` are always invalid; two-byte leads are
`0xC2..=0xDF`, three-byte `0xE0..=0xEF`, four-byte `0xF0..=0xF4`. -/
def utf8Decode : List Nat → Option (List Char)
  | [] => some []
  | b :: rest =>
    if b < 0x80 then
      (utf8Decode rest).map (fun cs => Char.ofNat b :: cs)
    else if b < 0xC2 then none
    else if b ≤ 0xDF then
      match rest with
      | b1 :: r =>
        if utf8Cont b1 then
          (utf8Decode r).map
            (fun cs => Char.ofNat ((b - 0xC0) * 0x40 + (b1 - 0x80)) :: cs)
        else none
      | [] => none
    else if b ≤ 0xEF then
      match rest with
      | b1 :: b2 :: r =>
        if utf8Snd3 b b1 && utf8Cont b2 then
          (utf8Decode r).map
            (fun cs =>
              Char.ofNat ((b - 0xE0) * 0x1000 + (b1 - 0x80) * 0x40
                + (b2 - 0x80)) :: cs)
        else none
      | _ => none
    else if b ≤ 0xF4 then
      match rest with
      | b1 :: b2 :: b3 :: r =>
        if utf8Snd4 b b1 && utf8Cont b2 && utf8Cont b3 then
          (utf8Decode r).map
            (fun cs =>
              Char.ofNat ((b - 0xF0) * 0x40000 + (b1 - 0x80) * 0x1000
                + (b2 - 0x80) * 0x40 + (b3 - 0x80)) :: cs)
        else none
      | _ => none
    else none

/-- Rust `str::split('.')` over the characters of a string: always
yields at least one (possibly empty) component; a separator at either
end or two adjacent separators yield empty components. -/
def splitDots : List Char → List (List Char)
  | [] => [[]]
  | c :: rest =>
    match splitDots rest with
    | [] => [[c]]
    | g :: gs => if c = '.' then [] :: g :: gs else (c :: g) :: gs

/-- Is `c` an ASCII decimal digit? -/
def isAsciiDigit (c : Char) : Bool :=
  decide (48 ≤ c.toNat ∧ c.toNat ≤ 57)

/-- Numeric value of a list of ASCII digit characters. -/
def digitsToNat (l : List Char) : Nat :=
  l.foldl (fun a c => a * 10 + (c.toNat - 48)) 0

/-- Rust `str::parse::<u64>()`: an optional leading `+`, then one or
more ASCII decimal digits, value at most `u64::MAX`; anything else is a
parse error. -/
def parseU64 (s : List Char) : Option Nat :=
  let t := match s with
    | '+' :: r => r
    | _ => s
  if t ≠ [] ∧ t.all isAsciiDigit = true then
    if digitsToNat t < 2 ^ 64 then some (digitsToNat t) else none
  else none

/-- `iBootView::get_iboot_version`: read up to `0x7a` bytes at offset
`0x286` of the parent view and decode them as UTF-8; `Err` (here
`none`) exactly when the bytes are not valid UTF-8. -/
def iBootView.get_iboot_version (img : List Nat) : Option (List Char) :=
  utf8Decode (read_vec img 0x286 0x7a)

/-- Little-endian unsigned 64-bit read of the 8 bytes at `off`
(callers establish `off + 8 ≤ img.length`, so the default is unused). -/
def readLE64 (img : List Nat) (off : Nat) : Nat :=
  (List.range 8).foldr (fun i acc => acc * 256 + img.getD (off + i) 0) 0

/-- `iBootView::find_base_addr`.  The version-decoding error path logs
and returns base address `0` (`return 0;`).  A failed integer parse of
the leading dot-separated component hits `.unwrap()` and panics; an
image shorter than `offset + 8` panics slicing
`buf.get_data()[offset..offset + 8]`.  Both panics are `none`.  The
offset starts at `0x318` and becomes `0x300` when the parsed version
major is at least `6603`. -/
def iBootView.find_base_addr (img : List Nat) : Option Nat :=
  match iBootView.get_iboot_version img with
  | none => some 0
  | some vers =>
    match (splitDots vers).head? with
    | none => none
    | some c0 =>
      match parseU64 c0 with
      | none => none
      | some m =>
        let off : Nat := if 6603 ≤ m then 0x300 else 0x318
        if off + 8 ≤ img.length then some (readLE64 img off) else none

/-- The section rendering semantics used by the source
(`Semantics::ReadOnlyCode` on the single section). -/
inductive SectionSemantics where
  | defaultSemantics : SectionSemantics
  | readOnlyCode : SectionSemantics
  deriving DecidableEq, Repr

/-- The segment permission flags built by
`SegmentFlags::new().readable(..).writable(..)...`. -/
structure SegFlags where
  readable : Bool
  writable : Bool
  executable : Bool
  containsData : Bool
  containsCode : Bool
  deriving DecidableEq, Repr

/-- One segment as registered by `add_segment`: the address range
`base_addr..base_addr + parent_len`, the parent backing range
`parent_view.start()..parent_view.len()` (the raw file view starts at
0), the auto flag and the permission flags. -/
structure SegmentRec where
  startAddr : Nat
  stopAddr : Nat
  backingStart : Nat
  backingStop : Nat
  isAuto : Bool
  flags : SegFlags
  deriving DecidableEq, Repr

/-- One section as registered by `add_section`. -/
structure SectionRec where
  name : String
  startAddr : Nat
  stopAddr : Nat
  semantics : SectionSemantics
  isAuto : Bool
  deriving DecidableEq, Repr

/-- The symbol kinds used by the source (`SymbolType::Function`). -/
inductive SymKind where
  | function : SymKind
  deriving DecidableEq, Repr

/-- One symbol as built by `Symbol::builder(kind, name, addr)`. -/
structure SymbolRec where
  kind : SymKind
  name : String
  addr : Nat
  deriving DecidableEq, Repr

/-- Everything `iBootView::init` hands to the Binary Ninja core for one
image: architecture facts from the `BinaryViewBase` impl and the
segments, sections, entry points and symbols it registers. -/
structure ImageLayout where
  baseAddr : Nat
  arch : String
  addressSize : Nat
  defaultEndianLittle : Bool
  segments : List SegmentRec
  sections : List SectionRec
  entryPoints : List Nat
  symbols : List SymbolRec
  deriving DecidableEq, Repr

/-- `iBootView::init` on the happy host path (the parent view exists,
`aarch64` and its platform are available, `read_buffer(0, len)`
returns the whole image): compute the base address and register exactly
one segment, one section named `iBoot`, one entry point and one
`_start` function symbol.  `none` when `find_base_addr` panics, which
aborts initialization.  The range ends `base_addr + parent_len` are
`u64` additions, so they wrap modulo `2 ^ 64` (release-build semantics;
a debug build would panic on overflow — under neither semantics is the
unbounded sum produced). -/
def iBootView.init (img : List Nat) : Option ImageLayout :=
  match iBootView.find_base_addr img with
  | none => none
  | some b =>
    some
      { baseAddr := b
        arch := "aarch64"
        addressSize := 8
        defaultEndianLittle := true
        segments :=
          [{ startAddr := b
             stopAddr := (b + img.length) % 2 ^ 64
             backingStart := 0
             backingStop := img.length
             isAuto := true
             flags :=
               { readable := true
                 writable := false
                 executable := true
                 containsData := true
                 containsCode := true } }]
        sections :=
          [{ name := "iBoot"
             startAddr := b
             stopAddr := (b + img.length) % 2 ^ 64
             semantics := SectionSemantics.readOnlyCode
             isAuto := true }]
        entryPoints := [b]
        symbols := [{ kind := SymKind.function, name := "_start", addr := b }] }

/-- The `BinaryViewBase::entry_point` accessor of `iBootView`: the
literal constant `0`, independent of the view's contents. -/
def iBootView.entry_point (_img : List Nat) : Nat :=
  0

/-- The 8-byte little-endian base-address field read, including the
bounds check the slice expression performs: `none` models the panic on
a too-short image. -/
def readBaseField (img : List Nat) (off : Nat) : Option Nat :=
  if off + 8 ≤ img.length then some (readLE64 img off) else none

/-! ### Concrete images used to exercise the definitions -/

/-- An `0x320`-byte image whose version window reads `6602.` followed by
`A` padding, with `A` (`0x41`) bytes at the base-address fields. -/
def ver602Img : List Nat :=
  List.replicate 0x286 0x41 ++ asciiBytes "6602." ++ List.replicate 0x95 0x41

/-- The layout `iBootView.init` produces for `ver602Img`: version major
`6602 < 6603` selects offset `0x318`, whose 8 bytes are all `0x41`. -/
def ver602Layout : ImageLayout :=
  { baseAddr := 0x4141414141414141
    arch := "aarch64"
    addressSize := 8
    defaultEndianLittle := true
    segments :=
      [{ startAddr := 0x4141414141414141
         stopAddr := 0x4141414141414141 + 0x320
         backingStart := 0
         backingStop := 0x320
         isAuto := true
         flags :=
           { readable := true
             writable := false
             executable := true
             containsData := true
             containsCode := true } }]
    sections :=
      [{ name := "iBoot"
         startAddr := 0x4141414141414141
         stopAddr := 0x4141414141414141 + 0x320
         semantics := SectionSemantics.readOnlyCode
         isAuto := true }]
    entryPoints := [0x4141414141414141]
    symbols := [{ kind := SymKind.function, name := "_start",
                  addr := 0x4141414141414141 }] }

/-- A `0x320`-byte image like `ver602Img` but whose base-address field
at `0x318` is eight `0xFF` bytes, resolving to `u64::MAX`: the range
end `base_addr + parent_len` overflows `u64` and wraps. -/
def overflowImg : List Nat :=
  List.replicate 0x286 0x41 ++ asciiBytes "6602." ++
    List.replicate 0x8d 0x41 ++ List.replicate 8 0xFF

/-- The layout `iBootView.init` produces for `overflowImg`: base
address `0xFFFFFFFFFFFFFFFF` and wrapped range end
`(2 ^ 64 - 1 + 0x320) % 2 ^ 64 = 0x31f`. -/
def overflowLayout : ImageLayout :=
  { baseAddr := 0xFFFFFFFFFFFFFFFF
    arch := "aarch64"
    addressSize := 8
    defaultEndianLittle := true
    segments :=
      [{ startAddr := 0xFFFFFFFFFFFFFFFF
         stopAddr := 0x31f
         backingStart := 0
         backingStop := 0x320
         isAuto := true
         flags :=
           { readable := true
             writable := false
             executable := true
             containsData := true
             containsCode := true } }]
    sections :=
      [{ name := "iBoot"
         startAddr := 0xFFFFFFFFFFFFFFFF
         stopAddr := 0x31f
         semantics := SectionSemantics.readOnlyCode
         isAuto := true }]
    entryPoints := [0xFFFFFFFFFFFFFFFF]
    symbols := [{ kind := SymKind.function, name := "_start",
                  addr := 0xFFFFFFFFFFFFFFFF }] }

/-- A buffer with the `iBoot` tag exactly at offset `0x200`. -/
def imgGood : List Nat :=
  List.replicate 0x200 0 ++ asciiBytes "iBoot"

/-- The same tag shifted by one byte, to offset `0x201`. -/
def imgShifted : List Nat :=
  List.replicate 0x201 0 ++ asciiBytes "iBoot"

/-- The tag at `0x200` with its first byte altered (`jBoot`). -/
def imgAltered : List Nat :=
  List.replicate 0x200 0 ++ asciiBytes "jBoot"

/-- An image whose version window starts with the byte `0xFF`, which is
never valid in UTF-8. -/
def invalidUtf8Img : List Nat :=
  List.replicate 0x286 0x41 ++ [0xFF] ++ List.replicate 0x99 0x41

/-- An image whose version text is `x.0.0` followed by `A` padding: the
leading dot-separated component `x` is not numeric. -/
def badFormatImg : List Nat :=
  List.replicate 0x286 0x41 ++ asciiBytes "x.0.0" ++ List.replicate 0x95 0x41

/-- A `0x2fb`-byte image whose version major `6603` selects offset
`0x300`, but whose length is below `0x300 + 8`. -/
def truncatedImg : List Nat :=
  List.replicate 0x286 0x41 ++ asciiBytes "6603." ++ List.replicate 0x70 0x41

/-- A 515-byte buffer, shorter than `0x200` plus every tag length. -/
def shortImg : List Nat :=
  List.replicate 0x203 0

/-! ### Helper lemmas -/

/-- Rust `split` always yields at least one component, even on the
empty string. -/
theorem splitDots_ne_nil (l : List Char) : splitDots l ≠ [] := by
  cases l with
  | nil => simp [splitDots]
  | cons c rest =>
    unfold splitDots
    cases h : splitDots rest with
    | nil => simp
    | cons g gs =>
      by_cases hc : c = '.' <;> simp [hc]

/-- Taking a prefix of length `t.length` equals `t` exactly when `t` is
an initial run of the list. -/
theorem take_length_eq_iff {α : Type} (l t : List α) :
    l.take t.length = t ↔ ∃ rest, l = t ++ rest := by
  constructor
  · intro h
    refine ⟨l.drop t.length, ?_⟩
    conv_lhs => rw [← List.take_append_drop t.length l]
    rw [h]
  · rintro ⟨rest, rfl⟩
    exact List.take_left t rest

/-- The per-tag comparison of `is_valid_for` succeeds exactly when the
tag's bytes appear at offset `0x200`. -/
theorem read_vec_tag_iff (data t : List Nat) :
    (read_vec data 0x200 t.length == t) = true ↔
      ∃ rest, data.drop 0x200 = t ++ rest := by
  rw [beq_iff_eq, read_vec]
  exact take_length_eq_iff _ t

/-- Every recognized tag is nonempty. -/
theorem tagNames_length_pos : ∀ t ∈ tagNames, 0 < t.length := by
  decide

/-! ### Claim theorems -/

set_option maxRecDepth 100000

/-- C1: for every image whose version string decodes and whose leading
dot-separated component parses as an unsigned integer `m`, the 8-byte
little-endian base-address field is read at header offset `0x300` when
`m ≥ 6603` and at offset `0x318` otherwise (so `6603` selects `0x300`
and `6602` selects `0x318`). -/
theorem find_base_addr_offset_boundary (img : List Nat)
    (vers c0 : List Char) (m : Nat)
    (hv : iBootView.get_iboot_version img = some vers)
    (h0 : (splitDots vers).head? = some c0)
    (hm : parseU64 c0 = some m) :
    (6603 ≤ m → iBootView.find_base_addr img = readBaseField img 0x300) ∧
    (m < 6603 → iBootView.find_base_addr img = readBaseField img 0x318) := by
  constructor <;> intro h <;>
    simp only [iBootView.find_base_addr, hv, h0, hm, readBaseField]
  · rw [if_pos h]
  · rw [if_neg (show ¬ (6603 ≤ m) by omega)]

/-- Witness for C1 at `ver602Img`, whose version major is `6602`. -/
theorem find_base_addr_offset_boundary_witness :
    iBootView.find_base_addr ver602Img = readBaseField ver602Img 0x318 :=
  (find_base_addr_offset_boundary ver602Img _ _ 6602 rfl rfl rfl).2 (by omega)

/-- C2: `is_valid_for` returns true exactly when one of the five tags
appears byte-for-byte starting at offset `0x200`; in particular a
buffer with `iBoot` exactly at `0x200` is accepted, while the same tag
shifted to `0x201` or with one byte altered is rejected. -/
theorem is_valid_for_iff_tag_at_0x200 :
    (∀ data : List Nat, iBootViewType.is_valid_for data = true ↔
      ∃ t ∈ tagNames, ∃ rest, data.drop 0x200 = t ++ rest) ∧
    iBootViewType.is_valid_for imgGood = true ∧
    iBootViewType.is_valid_for imgShifted = false ∧
    iBootViewType.is_valid_for imgAltered = false := by
  refine ⟨fun data => ?_, by decide, by decide, by decide⟩
  unfold iBootViewType.is_valid_for
  rw [List.any_eq_true]
  constructor
  · rintro ⟨t, ht, hb⟩
    exact ⟨t, ht, (read_vec_tag_iff data t).mp hb⟩
  · rintro ⟨t, ht, hrest⟩
    exact ⟨t, ht, (read_vec_tag_iff data t).mpr hrest⟩

/-- C3 counterexample: at `overflowImg` the resolved base address `B`
is `u64::MAX`, the `u64` range end `B + L` wraps to `0x31f`, and the
produced segment does not cover `[B, B + L)` as the claim states for
every resolved image. -/
theorem init_region_overflow_counterexample :
    iBootView.init overflowImg = some overflowLayout ∧
    overflowLayout.segments ≠
      [{ startAddr := overflowLayout.baseAddr
         stopAddr := overflowLayout.baseAddr + overflowImg.length
         backingStart := 0
         backingStop := overflowImg.length
         isAuto := true
         flags :=
           { readable := true
             writable := false
             executable := true
             containsData := true
             containsCode := true } }] :=
  ⟨rfl, by decide⟩

/-- C3 (amended): a resolved image of length `L` with base address `B`
such that `B + L` does not overflow `u64` yields exactly one segment
covering `[B, B + L)` backed by the full image, flagged readable,
executable, not writable, contains-code and contains-data; exactly one
section with read-only-code semantics over the same range; exactly one
entry point `B`; and exactly one `_start` function symbol at `B`.
(On overflow the `u64` range end wraps modulo `2 ^ 64`.) -/
theorem init_region_entry_symbol (img : List Nat) (b : Nat)
    (layout : ImageLayout)
    (hb : iBootView.find_base_addr img = some b)
    (h : iBootView.init img = some layout)
    (hno : b + img.length < 2 ^ 64) :
    layout.baseAddr = b ∧
    layout.segments =
      [{ startAddr := b
         stopAddr := b + img.length
         backingStart := 0
         backingStop := img.length
         isAuto := true
         flags :=
           { readable := true
             writable := false
             executable := true
             containsData := true
             containsCode := true } }] ∧
    layout.sections =
      [{ name := "iBoot"
         startAddr := b
         stopAddr := b + img.length
         semantics := SectionSemantics.readOnlyCode
         isAuto := true }] ∧
    layout.entryPoints = [b] ∧
    layout.symbols = [{ kind := SymKind.function, name := "_start",
                        addr := b }] := by
  unfold iBootView.init at h
  rw [hb] at h
  injection h with h
  subst h
  rw [Nat.mod_eq_of_lt hno]
  exact ⟨rfl, rfl, rfl, rfl, rfl⟩

/-- Witness for C3 at `ver602Img`, whose layout is `ver602Layout` and
whose base plus length stays below `2 ^ 64`. -/
theorem init_region_entry_symbol_witness :
    iBootView.init ver602Img = some ver602Layout ∧
    ver602Layout.entryPoints = [0x4141414141414141] ∧
    ver602Layout.symbols = [{ kind := SymKind.function, name := "_start",
                              addr := 0x4141414141414141 }] :=
  ⟨rfl,
   (init_region_entry_symbol ver602Img 0x4141414141414141 ver602Layout
      rfl rfl (by decide)).2.2.2.1,
   (init_region_entry_symbol ver602Img 0x4141414141414141 ver602Layout
      rfl rfl (by decide)).2.2.2.2⟩

/-- C4 (evaluating the code at the failing input): on an image whose
version window is not valid UTF-8, the code does not abort resolution
with a typed error; `find_base_addr` takes the `return 0;` error path
and `init` goes on to produce a layout whose base address is `0`. -/
theorem invalid_utf8_resolves_to_zero_base :
    iBootView.get_iboot_version invalidUtf8Img = none ∧
    iBootView.find_base_addr invalidUtf8Img = some 0 ∧
    (iBootView.init invalidUtf8Img).map ImageLayout.baseAddr = some 0 :=
  ⟨rfl, rfl, rfl⟩

/-- C5 (evaluating the code at the failing input): on a decoded version
text whose leading dot-separated component is `x` (not numeric), the
code reaches `.unwrap()` on a failed parse and panics — modelled as
`none` — instead of returning a typed recoverable error. -/
theorem nonnumeric_version_parse_panics :
    (splitDots ((iBootView.get_iboot_version badFormatImg).getD [])).head?
      = some ['x'] ∧
    parseU64 ['x'] = none ∧
    iBootView.find_base_addr badFormatImg = none ∧
    iBootView.init badFormatImg = none :=
  ⟨rfl, rfl, rfl, rfl⟩

/-- C6 (evaluating the code at the failing input): on an image of
length `0x2fb`, too short for the 8-byte field at the selected offset
`0x300`, the slice `buf.get_data()[0x300..0x308]` panics — modelled as
`none` — instead of failing with a typed `Truncated` error. -/
theorem truncated_base_field_panics :
    truncatedImg.length = 0x2fb ∧
    iBootView.find_base_addr truncatedImg = none ∧
    iBootView.init truncatedImg = none :=
  ⟨rfl, rfl, rfl⟩

/-- C7: a buffer shorter than `0x200` plus the length of every tag is
never reported as supported; the short reads compare unequal instead of
faulting out of bounds. -/
theorem short_buffer_not_supported (data : List Nat)
    (h : ∀ t ∈ tagNames, data.length < 0x200 + t.length) :
    iBootViewType.is_valid_for data = false := by
  unfold iBootViewType.is_valid_for
  rw [List.any_eq_false]
  intro t ht
  intro hb
  have hlen := congrArg List.length (beq_iff_eq.mp hb)
  rw [read_vec, List.length_take, List.length_drop] at hlen
  have hpos := tagNames_length_pos t ht
  have hshort := h t ht
  omega

/-- Witness for C7 at the 515-byte all-zero buffer. -/
theorem short_buffer_not_supported_witness :
    (∀ t ∈ tagNames, shortImg.length < 0x200 + t.length) ∧
    iBootViewType.is_valid_for shortImg = false :=
  ⟨by decide, short_buffer_not_supported shortImg (by decide)⟩

/-- C8: resolution is a deterministic, pure function of the image
bytes: resolving the same unchanged image twice yields bit-identical
layouts. -/
theorem init_deterministic (img1 img2 : List Nat) (h : img1 = img2) :
    iBootView.init img1 = iBootView.init img2 := by
  rw [h]

/-- Witness for C8 at `ver602Img`. -/
theorem init_deterministic_witness :
    iBootView.init ver602Img = iBootView.init ver602Img :=
  init_deterministic ver602Img ver602Img rfl

/-- C9: the `entry_point` accessor returns the constant `0` for every
image, even though initialization registers an entry point equal to the
resolved base address; the accessor never reflects the base address. -/
theorem entry_point_accessor_constant_zero (img : List Nat)
    (layout : ImageLayout) (h : iBootView.init img = some layout) :
    iBootView.entry_point img = 0 ∧
    layout.entryPoints = [layout.baseAddr] := by
  refine ⟨rfl, ?_⟩
  unfold iBootView.init at h
  cases hfb : iBootView.find_base_addr img with
  | none => rw [hfb] at h; cases h
  | some b =>
    rw [hfb] at h
    injection h with h
    subst h
    rfl

/-- Witness for C9 at `ver602Img`, whose registered entry point
`0x4141414141414141` differs from the accessor's constant `0`. -/
theorem entry_point_accessor_constant_zero_witness :
    iBootView.entry_point ver602Img = 0 ∧
    ver602Layout.entryPoints = [ver602Layout.baseAddr] ∧
    ver602Layout.baseAddr ≠ 0 :=
  ⟨(entry_point_accessor_constant_zero ver602Img ver602Layout rfl).1,
   (entry_point_accessor_constant_zero ver602Img ver602Layout rfl).2,
   by decide⟩

/-- C10: splitting any decoded version text on `.` yields at least one
component (even for the empty string), so taking the first component
never faults; once the version window decodes and the image is long
enough for both base-address fields, the only possible failure in the
version-major step is the unsigned-integer parse of that first
component. -/
theorem version_split_never_empty (img : List Nat) (vers : List Char)
    (hv : iBootView.get_iboot_version img = some vers)
    (hl : 0x320 ≤ img.length) :
    (∀ s : List Char, splitDots s ≠ []) ∧
    (∃ c0, (splitDots vers).head? = some c0) ∧
    (iBootView.find_base_addr img = none ↔
      parseU64 ((splitDots vers).headD []) = none) := by
  obtain ⟨c0, rest, hsp⟩ := List.exists_cons_of_ne_nil (splitDots_ne_nil vers)
  refine ⟨splitDots_ne_nil, ⟨c0, by rw [hsp]; rfl⟩, ?_⟩
  simp only [iBootView.find_base_addr, hv, hsp, List.head?_cons,
    List.headD_cons]
  cases hp : parseU64 c0 with
  | none => simp
  | some m =>
    have hoff : (if 6603 ≤ m then 0x300 else 0x318) + 8 ≤ img.length := by
      split <;> omega
    simp [hoff]

/-- Witness for C10 at `ver602Img`. -/
theorem version_split_never_empty_witness :
    0x320 ≤ ver602Img.length ∧ splitDots [] ≠ [] :=
  ⟨by decide, (version_split_never_empty ver602Img _ rfl (by decide)).1 []⟩
